import Mathlib

/-!
Verification of the saba browser-engine core (src/saba_core/src/renderer):
the JavaScript lexer (js/token.rs), the DOM node model (dom/node.rs) and the
tree-walking interpreter (js/runtime.rs), shallowly embedded in Lean 4.

Modelling conventions:
* `Rc<RefCell<_>>` heaps (DOM nodes, Environment frames) become index-based
  arenas (`List`), with `Nat` handles; `Weak` links become `Option Nat` that
  may fail to resolve. The spec itself (design notes) sanctions an
  index-based arena as an equivalent model of the ownership spine.
* Rust panics (index out of bounds, failed assertions, `unimplemented`,
  arithmetic overflow under the default debug profile) become an explicit
  error channel `Except`.
* `u64` values are `Nat`; arithmetic that Rust's debug profile would abort
  on (overflow past `2 ^ 64`) is modelled as a fatal arithmetic error.
* Recursion that is not structural in Rust (interpreter calls into stored
  function bodies, traversal of an arena graph) takes explicit fuel;
  exhausted fuel is a distinguished error that no theorem identifies with a
  program behaviour.
-/

/-- Decidable equality for `Except`, so that concrete runs of the
embedded code can be checked by `decide`. -/
instance exceptDecEq {ε α : Type} [DecidableEq ε] [DecidableEq α] : DecidableEq (Except ε α)
  | .error e, .error f =>
    if h : e = f then .isTrue (congrArg Except.error h)
    else .isFalse (fun hh => h (Except.error.inj hh))
  | .error _, .ok _ => .isFalse Except.noConfusion
  | .ok _, .error _ => .isFalse Except.noConfusion
  | .ok a, .ok b =>
    if h : a = b then .isTrue (congrArg Except.ok h)
    else .isFalse (fun hh => h (Except.ok.inj hh))

/-! ## Lexer (src/saba_core/src/renderer/js/token.rs) -/

/-- Token type of the JS lexer, from `enum Token` in token.rs. -/
inductive Token where
  | Punctuator (c : Char)
  | Number (n : Nat)
  | Identifier (s : String)
  | Keyword (s : String)
  | StringLiteral (s : String)
deriving DecidableEq

/-- Fatal lexer conditions: Rust panics of token.rs (slice index out of
bounds in `contains`, `unimplemented` on an unsupported character, debug
overflow of the numeric accumulator). -/
inductive LexError where
  | indexOutOfBounds
  | unsupportedChar
  | numberOverflow
deriving DecidableEq

/-- Lexer state, from `struct JsLexer { pos, input }`. -/
structure JsLexer where
  pos : Nat
  input : List Char
deriving DecidableEq

/-- `JsLexer::new`: the input string as a char vector, position 0. -/
def JsLexer.new (js : String) : JsLexer :=
  ⟨0, js.data⟩

/-- The fixed reserved-word list `RESERVED_WORDS` of token.rs. -/
def RESERVED_WORDS : List String := ["var", "function", "return"]

/-- Loop body of `JsLexer::contains`: compare `keyword[i]` with
`input[pos + i]` for each i; the Rust indexing `self.input[self.pos + i]`
has no bounds check and panics when `pos + i` falls past the end. -/
def containsAux (input : List Char) (pos : Nat) : List Char → Nat → Except LexError Bool
  | [], _ => .ok true
  | k :: ks, i =>
    match input.get? (pos + i) with
    | none => .error .indexOutOfBounds
    | some c => if k ≠ c then .ok false else containsAux input pos ks (i + 1)

/-- `JsLexer::contains(keyword)`. -/
def JsLexer.contains (lx : JsLexer) (keyword : String) : Except LexError Bool :=
  containsAux lx.input lx.pos keyword.data 0

/-- Loop of `JsLexer::check_reserved_word` over a word list. -/
def checkReservedAux (lx : JsLexer) : List String → Except LexError (Option String)
  | [] => .ok none
  | w :: ws =>
    match lx.contains w with
    | .error e => .error e
    | .ok true => .ok (some w)
    | .ok false => checkReservedAux lx ws

/-- `JsLexer::check_reserved_word`: first reserved word that literally
matches at the current position. -/
def JsLexer.check_reserved_word (lx : JsLexer) : Except LexError (Option String) :=
  checkReservedAux lx RESERVED_WORDS

/-- True for the ten punctuator characters of the lexer's dispatch
(`+ - = ; ( ) { } , .`); 123 and 125 are the brace characters. -/
def isPunctuatorChar (c : Char) : Bool :=
  c = '+' ∨ c = '-' ∨ c = '=' ∨ c = ';' ∨ c = '(' ∨ c = ')' ∨
    c.toNat = 123 ∨ c.toNat = 125 ∨ c = ',' ∨ c = '.'

/-- Rust `char::is_ascii_alphabetic`. -/
def isAsciiAlphabetic (c : Char) : Bool :=
  ('a' ≤ c ∧ c ≤ 'z') ∨ ('A' ≤ c ∧ c ≤ 'Z')

/-- Rust `'0'..='9'` range test. -/
def isAsciiDigit (c : Char) : Bool :=
  '0' ≤ c ∧ c ≤ '9'

/-- Loop of `JsLexer::cunsume_number` over the remaining input
(`rest = input.drop pos`): accumulate `num * 10 + digit` while digits
last; the debug profile aborts when the accumulator leaves `u64`. -/
def consumeNumberGo (num pos : Nat) : List Char → Except LexError (Nat × Nat)
  | [] => .ok (num, pos)
  | c :: rest =>
    if isAsciiDigit c then
      let n := num * 10 + (c.toNat - 48)
      if n < 2 ^ 64 then consumeNumberGo n (pos + 1) rest else .error .numberOverflow
    else .ok (num, pos)

/-- Loop of `JsLexer::consume_indentifier` over the remaining input:
push while the character is an ASCII letter or `$` (and nothing else —
in particular not `_`). -/
def consumeIdentifierGo (acc : String) (pos : Nat) : List Char → String × Nat
  | [] => (acc, pos)
  | c :: rest =>
    if isAsciiAlphabetic c ∨ c = '$' then consumeIdentifierGo (acc.push c) (pos + 1) rest
    else (acc, pos)

/-- Loop of `JsLexer::consume_string` after the opening quote: push raw
characters until a closing quote or the end of input. -/
def consumeStringGo (acc : String) (pos : Nat) : List Char → String × Nat
  | [] => (acc, pos)
  | c :: rest =>
    if c = '"' then (acc, pos + 1) else consumeStringGo (acc.push c) (pos + 1) rest

/-- Whitespace loop at the head of `next`: advance over spaces and
newlines; reaching the end of input means exhaustion (`none`). -/
def skipWhitespaceGo (pos : Nat) : List Char → Option Nat
  | [] => none
  | c :: rest =>
    if c = ' ' ∨ c = '\n' then skipWhitespaceGo (pos + 1) rest else some pos

/-- `<JsLexer as Iterator>::next`, one step of the lexer: `ok none` is
exhaustion, `ok (some tok)` a produced token with the successor state,
`error` a panic of the Rust code. -/
def jsNext (lx : JsLexer) : Except LexError (Option Token × JsLexer) :=
  if lx.input.length ≤ lx.pos then .ok (none, lx)
  else
    match skipWhitespaceGo lx.pos (lx.input.drop lx.pos) with
    | none => .ok (none, ⟨lx.input.length, lx.input⟩)
    | some pos₁ =>
      let lx₁ : JsLexer := ⟨pos₁, lx.input⟩
      match lx₁.check_reserved_word with
      | .error e => .error e
      | .ok (some kw) => .ok (some (.Keyword kw), ⟨pos₁ + kw.length, lx.input⟩)
      | .ok none =>
        match lx.input.get? pos₁ with
        | none => .error .indexOutOfBounds
        | some c =>
          if isPunctuatorChar c then .ok (some (.Punctuator c), ⟨pos₁ + 1, lx.input⟩)
          else if isAsciiDigit c then
            match consumeNumberGo 0 pos₁ (lx.input.drop pos₁) with
            | .error e => .error e
            | .ok (num, pos₂) => .ok (some (.Number num), ⟨pos₂, lx.input⟩)
          else if isAsciiAlphabetic c ∨ c = '_' ∨ c = '$' then
            let r := consumeIdentifierGo "" pos₁ (lx.input.drop pos₁)
            .ok (some (.Identifier r.1), ⟨r.2, lx.input⟩)
          else if c = '"' then
            let r := consumeStringGo "" (pos₁ + 1) (lx.input.drop (pos₁ + 1))
            .ok (some (.StringLiteral r.1), ⟨r.2, lx.input⟩)
          else .error .unsupportedChar

/-! ## DOM model (src/saba_core/src/renderer/dom/node.rs) -/

/-- Modelled from the spec: `Attribute` lives in
src/saba_core/src/renderer/html/attribute.rs, which is not part of the
provided sources; per the spec's data model an attribute is a name/value
pair kept in insertion order. -/
structure Attribute where
  name : String
  value : String
deriving DecidableEq

/-- `enum ElementKind` of node.rs: the closed element tag set. -/
inductive ElementKind where
  | Html
  | Head
  | Style
  | Script
  | Body
  | P
  | H1
  | H2
  | A
deriving DecidableEq

/-- `struct Element { kind, attributes }` of node.rs. -/
structure Element where
  kind : ElementKind
  attributes : List Attribute
deriving DecidableEq

/-- The derived `PartialEq` of `Element`: structural comparison of both
the kind and the whole attribute list. -/
def Element.beq (e₁ e₂ : Element) : Bool :=
  e₁.kind == e₂.kind && e₁.attributes == e₂.attributes

/-- `Element::get_attribute`: first attribute with the given name, in
insertion order. -/
def Element.get_attribute (e : Element) (name : String) : Option String :=
  match e.attributes.find? (fun a => a.name == name) with
  | some a => some a.value
  | none => none

/-- `enum NodeKind` of node.rs. -/
inductive NodeKind where
  | Document
  | Element (e : Element)
  | Text (s : String)
deriving DecidableEq

/-- The hand-written `impl PartialEq for NodeKind`: Document matches
Document, elements compare their `kind` tag only (attributes ignored),
and any two Text nodes compare equal regardless of their content. -/
def NodeKind.beq : NodeKind → NodeKind → Bool
  | .Document, .Document => true
  | .Document, _ => false
  | .Element e₁, .Element e₂ => e₁.kind == e₂.kind
  | .Element _, _ => false
  | .Text _, .Text _ => true
  | .Text _, _ => false

/-- `struct Node` of node.rs in arena form: the `Rc` owning links
(`first_child`, `next_sibling`) and the `Weak` back links (`window`,
`parent`, `last_child`, `previuos_sibling` — source spelling kept) all
become optional arena indices; `Weak::new()` is `none`. -/
structure DomNode where
  kind : NodeKind
  window : Option Nat
  parent : Option Nat
  first_child : Option Nat
  last_child : Option Nat
  previuos_sibling : Option Nat
  next_sibling : Option Nat
deriving DecidableEq

/-- `Node::new`: the given kind, every link empty. -/
def DomNode.new (kind : NodeKind) : DomNode :=
  ⟨kind, none, none, none, none, none, none⟩

/-- The hand-written `impl PartialEq for Node`: kind comparison only. -/
def DomNode.beq (n₁ n₂ : DomNode) : Bool :=
  NodeKind.beq n₁.kind n₂.kind

/-- `Node::set_first_child`: overwrite the `first_child` field and
nothing else (no parent or last-child fix-up). -/
def DomNode.set_first_child (n : DomNode) (c : Option Nat) : DomNode :=
  { n with first_child := c }

/-- Replace the element at one index of a list, leaving every other
position untouched (arena update for `RefCell` interior mutability). -/
def listModify {α : Type} : List α → Nat → (α → α) → List α
  | [], _, _ => []
  | a :: rest, 0, f => f a :: rest
  | a :: rest, n + 1, f => a :: listModify rest n f

/-- Modelled from the spec: `get_element_by_id` lives in
src/saba_core/src/renderer/dom/api.rs, which is not part of the provided
sources; per the spec's browser-API contract it is the pre-order,
document-order search for the first Element carrying an attribute named
`id` with the requested value. Fuel bounds the arena traversal; it is
never exhausted on an actual tree when larger than the node count. -/
def get_element_by_id (dom : List DomNode) : Nat → Option Nat → String → Option Nat
  | 0, _, _ => none
  | _, none, _ => none
  | fuel + 1, some i, idName =>
    match dom.get? i with
    | none => none
    | some nd =>
      let hit : Bool :=
        match nd.kind with
        | .Element e => e.get_attribute "id" == some idName
        | _ => false
      if hit then some i
      else
        match get_element_by_id dom fuel nd.first_child idName with
        | some r => some r
        | none => get_element_by_id dom fuel nd.next_sibling idName

/-! ## Runtime values (src/saba_core/src/renderer/js/runtime.rs) -/

/-- `enum RuntimeValue`: a `u64` number, a string, or a handle to a DOM
node with an optional pending property name. -/
inductive RuntimeValue where
  | Number (n : Nat)
  | StringLiteral (s : String)
  | HtmlElement (object : Nat) (property : Option String)
deriving DecidableEq

/-- Fatal interpreter conditions: the Rust panics of runtime.rs
(`panic` on an undefined function, failed `assert`, index out of bounds
on `arguments[0]`, debug-profile arithmetic overflow), plus fuel
exhaustion of the model, which corresponds to no Rust behaviour. -/
inductive EvalError where
  | undefinedFunction
  | assertionFailed
  | indexOutOfBounds
  | arithmeticOverflow
  | outOfFuel
deriving DecidableEq

/-- `impl Display for RuntimeValue`: numbers print in decimal, string
literals print themselves. The HtmlElement arm is Rust's
`format!("HtmlElement {:#?}", object)` — a standard-library Debug dump of
the whole node, whose exact text is not defined by this repository; it is
modelled as a concrete tag on the node handle, and no claim below depends
on that text. -/
def RuntimeValue.displayString : RuntimeValue → String
  | .Number n => toString n
  | .StringLiteral s => s
  | .HtmlElement o _ => "HtmlElement <node " ++ toString o ++ ">"

/-- `impl Add for RuntimeValue`: two numbers add as `u64` (the debug
profile aborts on overflow past `2 ^ 64`); any other pair concatenates
the display strings. -/
def RuntimeValue.add (a b : RuntimeValue) : Except EvalError RuntimeValue :=
  match a, b with
  | .Number l, .Number r =>
    if l + r < 2 ^ 64 then .ok (.Number (l + r)) else .error .arithmeticOverflow
  | _, _ => .ok (.StringLiteral (a.displayString ++ b.displayString))

/-- `impl Sub for RuntimeValue`: two numbers subtract as `u64` — the
Rust `left_num - right_num` has no saturation, so a right operand above
the left one overflows (debug profile aborts; release would wrap modulo
`2 ^ 64`); any other pair yields `Number(u64::MIN)`, the code's "NaN"
surrogate. -/
def RuntimeValue.sub (a b : RuntimeValue) : Except EvalError RuntimeValue :=
  match a, b with
  | .Number l, .Number r =>
    if r ≤ l then .ok (.Number (l - r)) else .error .arithmeticOverflow
  | _, _ => .ok (.Number 0)

/-- The derived `PartialEq` of `RuntimeValue`: numbers and strings
compare structurally; `Rc<RefCell<Node>>` handles compare through the
dereferenced nodes, i.e. by `Node`'s kind-only equality, so the DOM arena
is consulted. -/
def RuntimeValue.beq (dom : List DomNode) : RuntimeValue → RuntimeValue → Bool
  | .Number n, .Number m => n == m
  | .StringLiteral s, .StringLiteral t => s == t
  | .HtmlElement o p, .HtmlElement o' p' =>
    (match dom.get? o, dom.get? o' with
     | some n₁, some n₂ => DomNode.beq n₁ n₂
     | _, _ => false) && p == p'
  | _, _ => false

/-! ## Environment and AST (runtime.rs and the spec's AST contract) -/

/-- `struct Environment { variables, outer }` in arena form: the
`Rc<RefCell<Environment>>` outer link becomes an arena index; the
`variables` field is spelt `vars` because Lean reserves the word. -/
structure Environment where
  vars : List (String × Option RuntimeValue)
  outer : Option Nat
deriving DecidableEq

/-- The current-frame scan shared by `Environment::get_variable`: the
first binding with the given name, returning its stored optional value. -/
def lookupInFrame : List (String × Option RuntimeValue) → String → Option (Option RuntimeValue)
  | [], _ => none
  | (n, v) :: rest, name => if n == name then some v else lookupInFrame rest name

/-- `Environment::get_variable`: scan the current frame in insertion
order; on a hit return the stored optional value as is (a binding whose
value slot is empty reads back as absent); otherwise delegate to the
outer frame; no outer frame means not found. Fuel bounds the chain walk
and exceeds any acyclic chain when larger than the frame count. -/
def get_variable (envs : List Environment) : Nat → Nat → String → Option RuntimeValue
  | 0, _, _ => none
  | fuel + 1, ref, name =>
    match envs.get? ref with
    | none => none
    | some fr =>
      match lookupInFrame fr.vars name with
      | some v => v
      | none =>
        match fr.outer with
        | some o => get_variable envs fuel o name
        | none => none

/-- `Environment::add_variable`: append a binding, duplicates allowed. -/
def add_variable (vars : List (String × Option RuntimeValue)) (name : String)
    (value : Option RuntimeValue) : List (String × Option RuntimeValue) :=
  vars ++ [(name, value)]

/-- `Environment::update_variable`: find the first binding with the
given name in this frame only; remove it and append a fresh binding at
the end; when no binding matches, leave the frame untouched. -/
def update_variable : List (String × Option RuntimeValue) → String → Option RuntimeValue →
    List (String × Option RuntimeValue)
  | [], _, _ => []
  | (n, old) :: rest, name, value =>
    if n == name then rest ++ [(name, value)]
    else (n, old) :: update_variable rest name value

/-- The AST contract of the evaluator (`ast::Node`, shapes fixed by the
spec's section 4.2 and by the exhaustive match in `JsRuntime::eval`);
fields may be absent. -/
inductive JsNode where
  | ExpressionStatement (expr : Option JsNode)
  | AdditiveExpression (operator : Char) (left right : Option JsNode)
  | AssignmentExpression (operator : Char) (left right : Option JsNode)
  | MemberExpression (object property : Option JsNode)
  | NumericLiteral (value : Nat)
  | StringLiteral (value : String)
  | Identifier (name : String)
  | VariableDeclaration (declarations : List (Option JsNode))
  | VariableDeclarator (id init : Option JsNode)
  | CallExpression (callee : Option JsNode) (arguments : List (Option JsNode))
  | BlockStatement (body : List (Option JsNode))
  | ReturnStatement (argument : Option JsNode)
  | FunctionDeclaration (id : Option JsNode) (params : List (Option JsNode)) (body : Option JsNode)

/-- `struct Function { id, params, body }`: one entry of the flat global
function table. -/
structure Function where
  id : String
  params : List (Option JsNode)
  body : Option JsNode

/-- `struct JsRuntime` plus the two `Rc<RefCell<_>>` heaps it reaches:
the DOM arena with the root handle, the environment arena with the root
frame handle, and the flat function table. -/
structure JsRuntime where
  dom : List DomNode
  dom_root : Nat
  envs : List Environment
  env : Nat
  functions : List Function

/-- The `if let Node::Identifier(id)` test applied to an optional AST
node, used by the assignment and declarator branches of `eval`. -/
def identifierName : Option JsNode → Option String
  | some (.Identifier id) => some id
  | _ => none

/-- `env.borrow_mut().update_variable(..)` on one arena frame. -/
def updateVariableAt (s : JsRuntime) (ref : Nat) (name : String)
    (v : Option RuntimeValue) : JsRuntime :=
  { s with envs :=
      listModify s.envs ref (fun fr => { fr with vars := update_variable fr.vars name v }) }

/-- `env.borrow_mut().add_variable(..)` on one arena frame. -/
def addVariableAt (s : JsRuntime) (ref : Nat) (name : String)
    (v : Option RuntimeValue) : JsRuntime :=
  { s with envs :=
      listModify s.envs ref (fun fr => { fr with vars := add_variable fr.vars name v }) }

/-- The textContent mutation of the assignment branch: build a fresh
Text node with `Node::new` (every link empty) and store its handle with
`set_first_child`; nothing else in the arena changes. -/
def setTextContent (s : JsRuntime) (obj : Nat) (text : String) : JsRuntime :=
  { s with dom :=
      listModify (s.dom ++ [DomNode.new (.Text text)]) obj (fun nd => nd.set_first_child (some s.dom.length)) }

/-- The function-table scan of the call branch: the loop assigns every
matching entry without breaking, so the last match survives. -/
def findFunction (dom : List DomNode) (functions : List Function)
    (callee : RuntimeValue) : Option Function :=
  functions.foldl
    (fun acc fn => if RuntimeValue.beq dom callee (.StringLiteral fn.id) then some fn else acc)
    none

/-- The statement loop of the VariableDeclaration branch: evaluate each
node in order, discard results, abort on a fatal error. -/
def evalDiscardList
    (ev : JsRuntime → Option JsNode → JsRuntime × Except EvalError (Option RuntimeValue)) :
    JsRuntime → List (Option JsNode) → JsRuntime × Except EvalError Unit
  | s, [] => (s, .ok ())
  | s, d :: rest =>
    match ev s d with
    | (s₁, .error e) => (s₁, .error e)
    | (s₁, .ok _) => evalDiscardList ev s₁ rest

/-- The statement loop of the BlockStatement branch: evaluate each node
in order, keeping the last result. -/
def evalBlockList
    (ev : JsRuntime → Option JsNode → JsRuntime × Except EvalError (Option RuntimeValue)) :
    JsRuntime → Option RuntimeValue → List (Option JsNode) →
      JsRuntime × Except EvalError (Option RuntimeValue)
  | s, res, [] => (s, .ok res)
  | s, _, st :: rest =>
    match ev s st with
    | (s₁, .error e) => (s₁, .error e)
    | (s₁, .ok r) => evalBlockList ev s₁ r rest

/-- The parameter-binding loop of the call branch: evaluate each
parameter node in the child scope; when it yields a string name, bind it
there to the evaluated argument; any other parameter shape is skipped
(its argument is then not evaluated either). -/
def bindParamsList
    (ev : JsRuntime → Option JsNode → JsRuntime × Except EvalError (Option RuntimeValue))
    (envR : Nat) :
    JsRuntime → List (Option JsNode) → List (Option JsNode) →
      JsRuntime × Except EvalError Unit
  | s, [], _ => (s, .ok ())
  | s, _ :: _, [] => (s, .ok ())
  | s, arg :: args, p :: ps =>
    match ev s p with
    | (s₁, .error e) => (s₁, .error e)
    | (s₁, .ok (some (.StringLiteral name))) =>
      match ev s₁ arg with
      | (s₂, .error e) => (s₂, .error e)
      | (s₂, .ok v) => bindParamsList ev envR (addVariableAt s₂ envR name v) args ps
    | (s₁, .ok _) => bindParamsList ev envR s₁ args ps

/-- `JsRuntime::eval`, the tree-walking interpreter: `ok none` is an
absent value, `error` a Rust panic (or fuel exhaustion of the model).
Every recursive call runs at the predecessor fuel; all other structure
follows the match in runtime.rs arm by arm. -/
def eval : Nat → JsRuntime → Nat → Option JsNode → JsRuntime × Except EvalError (Option RuntimeValue)
  | 0, s, _, _ => (s, .error .outOfFuel)
  | fuel + 1, s, env, node =>
    match node with
    | none => (s, .ok none)
    | some (.ExpressionStatement expr) => eval fuel s env expr
    | some (.AdditiveExpression op left right) =>
      match eval fuel s env left with
      | (s₁, .error e) => (s₁, .error e)
      | (s₁, .ok none) => (s₁, .ok none)
      | (s₁, .ok (some lv)) =>
        match eval fuel s₁ env right with
        | (s₂, .error e) => (s₂, .error e)
        | (s₂, .ok none) => (s₂, .ok none)
        | (s₂, .ok (some rv)) =>
          if op = '+' then
            match lv.add rv with
            | .ok v => (s₂, .ok (some v))
            | .error e => (s₂, .error e)
          else if op = '-' then
            match lv.sub rv with
            | .ok v => (s₂, .ok (some v))
            | .error e => (s₂, .error e)
          else (s₂, .ok none)
    | some (.AssignmentExpression op left right) =>
      if op ≠ '=' then (s, .ok none)
      else
        match identifierName left with
        | some id =>
          match eval fuel s env right with
          | (s₁, .error e) => (s₁, .error e)
          | (s₁, .ok newValue) => (updateVariableAt s₁ env id newValue, .ok none)
        | none =>
          match eval fuel s env left with
          | (s₁, .error e) => (s₁, .error e)
          | (s₁, .ok (some (.HtmlElement obj property))) =>
            match eval fuel s₁ env right with
            | (s₂, .error e) => (s₂, .error e)
            | (s₂, .ok none) => (s₂, .ok none)
            | (s₂, .ok (some rv)) =>
              match property with
              | some p =>
                if p = "textContent" then (setTextContent s₂ obj rv.displayString, .ok none)
                else (s₂, .ok none)
              | none => (s₂, .ok none)
          | (s₁, .ok _) => (s₁, .ok none)
    | some (.MemberExpression object property) =>
      match eval fuel s env object with
      | (s₁, .error e) => (s₁, .error e)
      | (s₁, .ok none) => (s₁, .ok none)
      | (s₁, .ok (some ov)) =>
        match eval fuel s₁ env property with
        | (s₂, .error e) => (s₂, .error e)
        | (s₂, .ok none) => (s₂, .ok (some ov))
        | (s₂, .ok (some pv)) =>
          match ov with
          | .HtmlElement obj prop =>
            match prop with
            | none => (s₂, .ok (some (.HtmlElement obj (some pv.displayString))))
            | some _ => (s₂, .error .assertionFailed)
          | _ =>
            match ov.add (.StringLiteral ".") with
            | .error e => (s₂, .error e)
            | .ok mid =>
              match mid.add pv with
              | .error e => (s₂, .error e)
              | .ok v => (s₂, .ok (some v))
    | some (.NumericLiteral value) => (s, .ok (some (.Number value)))
    | some (.StringLiteral value) => (s, .ok (some (.StringLiteral value)))
    | some (.Identifier name) =>
      match get_variable s.envs (s.envs.length + 1) env name with
      | some v => (s, .ok (some v))
      | none => (s, .ok (some (.StringLiteral name)))
    | some (.VariableDeclaration declarations) =>
      match evalDiscardList (fun st nd => eval fuel st env nd) s declarations with
      | (s₁, .error e) => (s₁, .error e)
      | (s₁, .ok _) => (s₁, .ok none)
    | some (.VariableDeclarator id init) =>
      match identifierName id with
      | some name =>
        match eval fuel s env init with
        | (s₁, .error e) => (s₁, .error e)
        | (s₁, .ok v) => (addVariableAt s₁ env name v, .ok none)
      | none => (s, .ok none)
    | some (.CallExpression callee arguments) =>
      let childRef := s.envs.length
      let s₀ : JsRuntime := { s with envs := s.envs ++ [⟨[], some env⟩] }
      match eval fuel s₀ childRef callee with
      | (s₁, .error e) => (s₁, .error e)
      | (s₁, .ok none) => (s₁, .ok none)
      | (s₁, .ok (some calleeValue)) =>
        if RuntimeValue.beq s₁.dom calleeValue (.StringLiteral "document.getElementById") then
          match arguments.get? 0 with
          | none => (s₁, .error .indexOutOfBounds)
          | some arg0 =>
            match eval fuel s₁ childRef arg0 with
            | (s₂, .error e) => (s₂, .error e)
            | (s₂, .ok none) => (s₂, .ok none)
            | (s₂, .ok (some a)) =>
              match get_element_by_id s₂.dom (s₂.dom.length + 1) (some s₂.dom_root) a.displayString with
              | none => (s₂, .ok none)
              | some target => (s₂, .ok (some (.HtmlElement target none)))
        else
          match findFunction s₁.dom s₁.functions calleeValue with
          | none => (s₁, .error .undefinedFunction)
          | some fn =>
            if arguments.length = fn.params.length then
              match bindParamsList (fun st nd => eval fuel st childRef nd) childRef s₁ arguments fn.params with
              | (s₂, .error e) => (s₂, .error e)
              | (s₂, .ok _) => eval fuel s₂ childRef fn.body
            else (s₁, .error .assertionFailed)
    | some (.BlockStatement body) =>
      evalBlockList (fun st nd => eval fuel st env nd) s none body
    | some (.ReturnStatement argument) => eval fuel s env argument
    | some (.FunctionDeclaration id params body) =>
      match eval fuel s env id with
      | (s₁, .error e) => (s₁, .error e)
      | (s₁, .ok (some (.StringLiteral name))) =>
        ({ s₁ with functions := s₁.functions ++ [⟨name, params, body⟩] }, .ok none)
      | (s₁, .ok _) => (s₁, .ok none)

/-- `JsRuntime::execute`: evaluate each top-level statement against the
root environment, in order, discarding results; a Rust panic aborts the
remaining statements. -/
def execute (fuel : Nat) (s : JsRuntime) (body : List JsNode) : JsRuntime × Except EvalError Unit :=
  evalDiscardList (fun st nd => eval fuel st st.env nd) s (body.map some)

/-! ## The spec's DOM tree invariant -/

/-- Resolve a weak link against the arena: a stored handle that is
inside the arena resolves, anything else reads as gone. -/
def resolveWeak (dom : List DomNode) : Option Nat → Option Nat
  | none => none
  | some j => if j < dom.length then some j else none

/-- Follow `next_sibling` from a node until it runs out, returning the
final node reached (fuel bounds the walk). -/
def walkSiblings (dom : List DomNode) : Nat → Nat → Option Nat
  | 0, _ => none
  | fuel + 1, c =>
    match dom.get? c with
    | none => none
    | some nd =>
      match nd.next_sibling with
      | none => some c
      | some nxt => walkSiblings dom fuel nxt

/-- The spec's tree invariant at one node: when `first_child` is set,
the first child's parent link resolves back to this node, and the
`next_sibling` walk from the first child ends at whatever `last_child`
resolves to. -/
def nodeInvariant (dom : List DomNode) (i : Nat) : Bool :=
  match dom.get? i with
  | none => true
  | some nd =>
    match nd.first_child with
    | none => true
    | some c =>
      (match dom.get? c with
       | some cnd => cnd.parent == some i
       | none => false) &&
        walkSiblings dom (dom.length + 1) c == resolveWeak dom nd.last_child

/-! ## Concrete inputs used by the closed theorems below -/

/-- A minimal runtime: one Document node, one empty root frame, no
functions. -/
def rtEmpty : JsRuntime :=
  { dom := [DomNode.new .Document], dom_root := 0, envs := [⟨[], none⟩], env := 0, functions := [] }

/-- Document root of the textContent scenario: first and last child are
node 1. -/
def c2Doc : DomNode :=
  { kind := .Document, window := none, parent := none, first_child := some 1,
    last_child := some 1, previuos_sibling := none, next_sibling := none }

/-- The target `<p id="target">` of the textContent scenario: child of
node 0, with the Text node 2 as its only child. -/
def c2Target : DomNode :=
  { kind := .Element ⟨.P, [⟨"id", "target"⟩]⟩, window := none, parent := some 0,
    first_child := some 2, last_child := some 2, previuos_sibling := none, next_sibling := none }

/-- The prior Text child of the target. -/
def c2Text : DomNode :=
  { kind := .Text "old", window := none, parent := some 1, first_child := none,
    last_child := none, previuos_sibling := none, next_sibling := none }

/-- Runtime for the textContent scenario: the three-node document above
and a root frame binding `target` to the element handle. -/
def c2State : JsRuntime :=
  { dom := [c2Doc, c2Target, c2Text], dom_root := 0,
    envs := [⟨[("target", some (.HtmlElement 1 none))], none⟩], env := 0, functions := [] }

/-- The AST of `target.textContent = "foobar"`. -/
def c2Assign : JsNode :=
  .AssignmentExpression '=' (some (.MemberExpression (some (.Identifier "target")) (some (.Identifier "textContent")))) (some (.StringLiteral "foobar"))

/-- Runtime with two Function-table entries both named `foo`, the first
returning 1 and the second returning 2. -/
def c3State : JsRuntime :=
  { dom := [DomNode.new .Document], dom_root := 0, envs := [⟨[], none⟩], env := 0,
    functions := [⟨"foo", [], some (.ReturnStatement (some (.NumericLiteral 1)))⟩, ⟨"foo", [], some (.ReturnStatement (some (.NumericLiteral 2)))⟩] }

/-- Runtime whose root frame binds `x` to an HtmlElement that already
carries the pending property "textContent". -/
def c4State : JsRuntime :=
  { dom := [DomNode.new .Document], dom_root := 0,
    envs := [⟨[("x", some (.HtmlElement 0 (some "textContent")))], none⟩], env := 0, functions := [] }

/-- Document with one `<p id="target">` child, for the getElementById
scenario. -/
def c8State : JsRuntime :=
  { dom := [c2Doc, { kind := .Element ⟨.P, [⟨"id", "target"⟩]⟩, window := none, parent := some 0, first_child := none, last_child := none, previuos_sibling := none, next_sibling := none }],
    dom_root := 0, envs := [⟨[], none⟩], env := 0, functions := [] }

/-- The AST of `document.getElementById("target")`. -/
def c8Call : JsNode :=
  .CallExpression (some (.MemberExpression (some (.Identifier "document")) (some (.Identifier "getElementById")))) [some (.StringLiteral "target")]

/-- The state after the call branch pushes the fresh child frame onto
`c8State`. -/
def c8Child : JsRuntime :=
  { c8State with envs := [⟨[], none⟩, ⟨[], some 0⟩] }

/-! ## Shared helper lemmas -/

/-- Arena update at an index keeps the length. -/
theorem listModify_length {α : Type} (l : List α) (i : Nat) (f : α → α) :
    (listModify l i f).length = l.length := by
  induction l generalizing i with
  | nil => rfl
  | cons a rest ih =>
    cases i with
    | zero => rfl
    | succ n => simp [listModify, ih]

/-- Reading the updated index of an arena update. -/
theorem listModify_get_eq {α : Type} (l : List α) (i : Nat) (f : α → α) :
    (listModify l i f).get? i = (l.get? i).map f := by
  induction l generalizing i with
  | nil => rfl
  | cons a rest ih =>
    cases i with
    | zero => rfl
    | succ n => simpa [listModify] using ih n

/-- Reading any other index of an arena update. -/
theorem listModify_get_ne {α : Type} (l : List α) (i j : Nat) (f : α → α) (h : j ≠ i) :
    (listModify l i f).get? j = l.get? j := by
  induction l generalizing i j with
  | nil => rfl
  | cons a rest ih =>
    cases i with
    | zero =>
      cases j with
      | zero => exact absurd rfl h
      | succ m => rfl
    | succ n =>
      cases j with
      | zero => rfl
      | succ m =>
        simp only [listModify, List.get?_cons_succ]
        exact ih n m (fun hh => h (by rw [hh]))

/-- A fold that overwrites its accumulator with every match returns the
last match: the find-loop of the call branch keeps the final matching
entry of the table. -/
theorem foldl_overwrite_getLast {α : Type} (p : α → Bool) (fs : List α) :
    fs.foldl (fun acc a => if p a then some a else acc) none = (fs.filter p).getLast? := by
  induction fs using List.reverseRecOn with
  | nil => rfl
  | append_singleton l a ih =>
    rw [List.foldl_append, List.filter_append]
    by_cases h : p a
    · simp [h, List.getLast?_concat]
    · simp [h, ih]

/-! ## Claim theorems -/

/-- C1 (counterexample): evaluating the AdditiveExpression `1 - 2` does
not return `Number(0)` — the unsigned subtraction overflows and is a
fatal arithmetic error, refuting the claimed saturation to the minimum
unsigned value. -/
theorem additive_sub_no_saturation_counterexample :
    (eval 2 rtEmpty 0 (some (.AdditiveExpression '-' (some (.NumericLiteral 1)) (some (.NumericLiteral 2))))).2 = .error .arithmeticOverflow ∧
    (Except.error EvalError.arithmeticOverflow : Except EvalError (Option RuntimeValue)) ≠ .ok (some (.Number 0)) := by
  decide

/-- C1 (amended): for an AdditiveExpression with operator `-` whose two
operands evaluate to Numbers `l` and `r`, evaluation returns
`Number (l - r)` when `r ≤ l`; when the right value exceeds the left the
`u64` subtraction overflows and is fatal (the debug profile aborts;
release would wrap modulo `2 ^ 64`) — it does not saturate to 0. -/
theorem additive_sub_checked_semantics (fuel : Nat) (s s₁ s₂ : JsRuntime) (env : Nat)
    (le re : Option JsNode) (l r : Nat)
    (hl : eval fuel s env le = (s₁, .ok (some (.Number l))))
    (hr : eval fuel s₁ env re = (s₂, .ok (some (.Number r)))) :
    eval (fuel + 1) s env (some (.AdditiveExpression '-' le re)) =
      (s₂, if r ≤ l then .ok (some (.Number (l - r))) else .error .arithmeticOverflow) := by
  simp only [eval, hl, hr, RuntimeValue.sub]
  by_cases h : r ≤ l
  · simp [h]
  · simp [h]

/-- Witness for C1: `5 - 2` evaluates to `Number 3` through the amended
theorem. -/
theorem additive_sub_checked_semantics_witness :
    eval 2 rtEmpty 0 (some (.AdditiveExpression '-' (some (.NumericLiteral 5)) (some (.NumericLiteral 2)))) = (rtEmpty, .ok (some (.Number 3))) := by
  have h := additive_sub_checked_semantics 1 rtEmpty rtEmpty rtEmpty 0
      (some (.NumericLiteral 5)) (some (.NumericLiteral 2)) 5 2 rfl rfl
  simpa using h

/-- C2 (code bug): the DOM tree invariant holds on the initial document
but is broken by the textContent assignment `target.textContent =
"foobar"`: the evaluation succeeds with an absent result, yet afterwards
the target's first child is the fresh Text node 3 whose parent link is
empty, so the invariant check at the target fails. -/
theorem textContent_breaks_tree_invariant :
    nodeInvariant c2State.dom 1 = true ∧
    (eval 3 c2State 0 (some c2Assign)).2 = .ok none ∧
    nodeInvariant (eval 3 c2State 0 (some c2Assign)).1.dom 1 = false ∧
    ((eval 3 c2State 0 (some c2Assign)).1.dom.get? 1).map (fun nd => nd.first_child) = some (some 3) ∧
    ((eval 3 c2State 0 (some c2Assign)).1.dom.get? 3).map (fun nd => nd.parent) = some none := by
  decide

/-- C3 (counterexample): with two Function-table entries both named
`foo`, the first returning 1 and the second returning 2, the call
`foo()` returns `Number 2` — the LAST entry — while dispatch to the
first entry, as claimed, would return `Number 1`. -/
theorem call_dispatch_uses_last_entry_counterexample :
    c3State.functions.map (fun fn => fn.id) = ["foo", "foo"] ∧
    (eval 3 c3State 0 (some (.CallExpression (some (.Identifier "foo")) []))).2 = .ok (some (.Number 2)) ∧
    (eval 2 c3State 0 (some (.ReturnStatement (some (.NumericLiteral 1))))).2 = .ok (some (.Number 1)) ∧
    (Except.ok (some (RuntimeValue.Number 2)) : Except EvalError (Option RuntimeValue)) ≠ .ok (some (.Number 1)) := by
  refine ⟨rfl, by decide, by decide, by decide⟩

/-- C3 (amended): the function-table scan returns the LAST entry whose
name equals the callee's string form (the loop overwrites its result on
every match), and a call whose callee matches no browser API and no
table entry is fatal. -/
theorem call_dispatch_last_match_or_fatal :
    (∀ (dom : List DomNode) (fs : List Function) (v : RuntimeValue),
       findFunction dom fs v =
         (fs.filter (fun fn => RuntimeValue.beq dom v (.StringLiteral fn.id))).getLast?) ∧
    (∀ (fuel : Nat) (s s₁ : JsRuntime) (env : Nat) (callee : Option JsNode)
       (args : List (Option JsNode)) (v : RuntimeValue),
       eval fuel { s with envs := s.envs ++ [⟨[], some env⟩] } s.envs.length callee =
         (s₁, .ok (some v)) →
       RuntimeValue.beq s₁.dom v (.StringLiteral "document.getElementById") = false →
       findFunction s₁.dom s₁.functions v = none →
       eval (fuel + 1) s env (some (.CallExpression callee args)) =
         (s₁, .error .undefinedFunction)) := by
  constructor
  · intro dom fs v
    exact foldl_overwrite_getLast _ fs
  · intro fuel s s₁ env callee args v hc hb hf
    simp only [eval, hc, hb, hf]
    simp

/-- Witness for C3: calling the undefined function `nosuch` on the
empty runtime is fatal, through the amended theorem. -/
theorem call_dispatch_last_match_or_fatal_witness :
    eval 2 rtEmpty 0 (some (.CallExpression (some (.Identifier "nosuch")) [])) =
      ({ rtEmpty with envs := rtEmpty.envs ++ [⟨[], some 0⟩] }, .error .undefinedFunction) := by
  exact call_dispatch_last_match_or_fatal.2 1 rtEmpty
    { rtEmpty with envs := rtEmpty.envs ++ [⟨[], some 0⟩] } 0
    (some (.Identifier "nosuch")) [] (.StringLiteral "nosuch") rfl rfl rfl

/-- C4 (counterexample): a MemberExpression whose object evaluates to an
HtmlElement already carrying a pending property does not return the
claimed concatenated StringLiteral — it fails the interpreter's
assertion that the pending property slot is empty. -/
theorem member_pending_property_counterexample :
    (eval 2 c4State 0 (some (.MemberExpression (some (.Identifier "x")) (some (.StringLiteral "y"))))).2 = .error .assertionFailed ∧
    (Except.error EvalError.assertionFailed : Except EvalError (Option RuntimeValue)) ≠
      .ok (some (.StringLiteral ((RuntimeValue.HtmlElement 0 (some "textContent")).displayString ++ "." ++ "y"))) := by
  decide

/-- C4 (amended): for a MemberExpression whose object evaluates to an
HtmlElement that already carries a pending property and whose property
expression evaluates to some value, evaluation is fatal (assertion
failure); the StringLiteral concatenation applies only to non-HtmlElement
object values. -/
theorem member_pending_property_is_fatal (fuel : Nat) (s s₁ s₂ : JsRuntime) (env : Nat)
    (objE propE : Option JsNode) (n : Nat) (p : String) (pv : RuntimeValue)
    (ho : eval fuel s env objE = (s₁, .ok (some (.HtmlElement n (some p)))))
    (hp : eval fuel s₁ env propE = (s₂, .ok (some pv))) :
    eval (fuel + 1) s env (some (.MemberExpression objE propE)) = (s₂, .error .assertionFailed) := by
  simp only [eval, ho, hp]

/-- Witness for C4: `x.y` with `x` bound to an element that already has
a pending property is fatal, through the amended theorem. -/
theorem member_pending_property_is_fatal_witness :
    eval 2 c4State 0 (some (.MemberExpression (some (.Identifier "x")) (some (.StringLiteral "y")))) = (c4State, .error .assertionFailed) := by
  exact member_pending_property_is_fatal 1 c4State c4State c4State 0
    (some (.Identifier "x")) (some (.StringLiteral "y")) 0 "textContent" (.StringLiteral "y") rfl rfl

/-- C5 (code bug): on the input `"_"` the lexer's `next` returns an
empty Identifier token and leaves the position unchanged, so the token
sequence repeats this token forever — the sequence is not finite and a
token-returning `next` does not strictly advance. -/
theorem lexer_underscore_no_advance :
    jsNext (JsLexer.new "_") = .ok (some (.Identifier ""), JsLexer.new "_") := by
  decide

/-- C6 (confirmed): an AssignmentExpression with operator `=` whose
non-Identifier left side evaluates to an HtmlElement with pending
property `textContent` and whose right side evaluates to a value
replaces the target's first child with a single fresh Text node (all
links empty) holding the right value's display string, and returns an
absent result; any other pending property (or none) leaves the DOM
exactly as the operand evaluations left it. -/
theorem assign_textContent_replaces_first_child
    (fuel : Nat) (s s₁ s₂ : JsRuntime) (env : Nat) (lnode : JsNode) (re : Option JsNode)
    (obj : Nat) (pp : Option String) (rv : RuntimeValue)
    (hni : identifierName (some lnode) = none)
    (hl : eval fuel s env (some lnode) = (s₁, .ok (some (.HtmlElement obj pp))))
    (hr : eval fuel s₁ env re = (s₂, .ok (some rv)))
    (hobj : obj < s₂.dom.length) :
    (pp = some "textContent" →
      eval (fuel + 1) s env (some (.AssignmentExpression '=' (some lnode) re)) =
        (setTextContent s₂ obj rv.displayString, .ok none) ∧
      (setTextContent s₂ obj rv.displayString).dom.get? s₂.dom.length =
        some (DomNode.new (.Text rv.displayString)) ∧
      ((setTextContent s₂ obj rv.displayString).dom.get? obj).map (fun nd => nd.first_child) =
        some (some s₂.dom.length)) ∧
    (∀ p, pp = some p → p ≠ "textContent" →
      eval (fuel + 1) s env (some (.AssignmentExpression '=' (some lnode) re)) = (s₂, .ok none)) ∧
    (pp = none →
      eval (fuel + 1) s env (some (.AssignmentExpression '=' (some lnode) re)) = (s₂, .ok none)) := by
  refine ⟨?_, ?_, ?_⟩
  · intro hpp
    subst hpp
    refine ⟨?_, ?_, ?_⟩
    · simp only [eval, hni, hl, hr]
      simp
    · unfold setTextContent
      rw [listModify_get_ne _ _ _ _ (Nat.ne_of_lt hobj).symm]
      simp [List.get?_concat_length]
    · unfold setTextContent
      rw [listModify_get_eq, List.get?_append hobj, List.get?_eq_get hobj]
      simp [DomNode.set_first_child]
  · intro p hpp hne
    subst hpp
    simp only [eval, hni, hl, hr]
    simp [hne]
  · intro hpp
    subst hpp
    simp only [eval, hni, hl, hr]
    simp

/-- Witness for C6: `target.textContent = "foobar"` on the three-node
document replaces the target's first child through the theorem. -/
theorem assign_textContent_replaces_first_child_witness :
    eval 3 c2State 0 (some c2Assign) = (setTextContent c2State 1 "foobar", .ok none) := by
  have h := assign_textContent_replaces_first_child 2 c2State c2State c2State 0
      (.MemberExpression (some (.Identifier "target")) (some (.Identifier "textContent")))
      (some (.StringLiteral "foobar")) 1 (some "textContent") (.StringLiteral "foobar")
      rfl rfl rfl (by decide)
  exact (h.1 rfl).1

/-- C7 (confirmed): `update_variable` touches only the current frame —
when no binding with the name exists the frame is returned unchanged;
when one exists the first such entry is removed and a fresh binding is
appended at the end — and the Identifier-assignment branch of `eval`
rewrites exactly the current frame of the environment arena, leaving
every other frame and the frame's outer link untouched. -/
theorem env_assign_current_frame_only :
    (∀ (vars : List (String × Option RuntimeValue)) (name : String) (v : Option RuntimeValue),
       lookupInFrame vars name = none → update_variable vars name v = vars) ∧
    (∀ (pre post : List (String × Option RuntimeValue)) (old : Option RuntimeValue)
       (name : String) (v : Option RuntimeValue),
       (∀ q ∈ pre, q.1 ≠ name) →
       update_variable (pre ++ (name, old) :: post) name v = pre ++ post ++ [(name, v)]) ∧
    (∀ (fuel : Nat) (s s₁ : JsRuntime) (env : Nat) (right : Option JsNode) (id : String)
       (res : Option RuntimeValue),
       eval fuel s env right = (s₁, .ok res) →
       eval (fuel + 1) s env (some (.AssignmentExpression '=' (some (.Identifier id)) right)) =
         (updateVariableAt s₁ env id res, .ok none) ∧
       (∀ j, j ≠ env → (updateVariableAt s₁ env id res).envs.get? j = s₁.envs.get? j) ∧
       ((updateVariableAt s₁ env id res).envs.get? env).map (fun fr => fr.outer) =
         (s₁.envs.get? env).map (fun fr => fr.outer)) := by
  refine ⟨?_, ?_, ?_⟩
  · intro vars name v hno
    induction vars with
    | nil => rfl
    | cons q rest ih =>
      obtain ⟨n, old⟩ := q
      by_cases h : n == name
      · simp [lookupInFrame, h] at hno
      · simp only [lookupInFrame, h] at hno
        simp only [update_variable, h, if_neg]
        simp [ih hno]
  · intro pre post old name v hpre
    induction pre with
    | nil => simp [update_variable]
    | cons q rest ih =>
      obtain ⟨n, o⟩ := q
      have hn : ¬(n == name) = true := by
        simpa using hpre (n, o) (by simp)
      simp only [List.cons_append, update_variable, hn, if_neg, Bool.not_eq_true]
      have := ih (fun q hq => hpre q (by simp [hq]))
      simp [this]
  · intro fuel s s₁ env right id res h
    refine ⟨?_, ?_, ?_⟩
    · simp only [eval, identifierName, h]
      simp
    · intro j hj
      unfold updateVariableAt
      exact listModify_get_ne _ _ _ _ hj
    · unfold updateVariableAt
      rw [listModify_get_eq]
      cases s₁.envs.get? env <;> simp

/-- Witness for C7: reassigning `b` moves its binding to the end of the
frame, and assigning the unbound `zz` routes through `updateVariableAt`
with an absent-name no-op, both through the theorem. -/
theorem env_assign_current_frame_only_witness :
    update_variable [("a", some (.Number 7)), ("b", none)] "b" (some (.Number 9)) =
      [("a", some (.Number 7)), ("b", some (.Number 9))] ∧
    eval 2 rtEmpty 0 (some (.AssignmentExpression '=' (some (.Identifier "zz")) (some (.NumericLiteral 5)))) =
      (updateVariableAt rtEmpty 0 "zz" (some (.Number 5)), .ok none) := by
  constructor
  · have h := env_assign_current_frame_only.2.1 [("a", some (.Number 7))] [] none "b"
        (some (.Number 9)) (by decide)
    simpa using h
  · exact (env_assign_current_frame_only.2.2 1 rtEmpty rtEmpty 0
      (some (.NumericLiteral 5)) "zz" (some (.Number 5)) rfl).1

/-- C8 (confirmed, with `get_element_by_id` modelled from the spec): a
call whose callee evaluates exactly to the string
`document.getElementById` returns an absent value when the argument
evaluates to nothing, an absent value when the pre-order search finds no
element with a matching `id` attribute, and an HtmlElement with no
pending property wrapping the found node otherwise — in every case
without consulting the function table. -/
theorem getElementById_call_contract
    (fuel : Nat) (s s₁ : JsRuntime) (env : Nat) (callee arg0 : Option JsNode)
    (args : List (Option JsNode))
    (hc : eval fuel { s with envs := s.envs ++ [⟨[], some env⟩] } s.envs.length callee =
           (s₁, .ok (some (.StringLiteral "document.getElementById")))) :
    (∀ s₂, eval fuel s₁ s.envs.length arg0 = (s₂, .ok none) →
       eval (fuel + 1) s env (some (.CallExpression callee (arg0 :: args))) = (s₂, .ok none)) ∧
    (∀ s₂ a, eval fuel s₁ s.envs.length arg0 = (s₂, .ok (some a)) →
       get_element_by_id s₂.dom (s₂.dom.length + 1) (some s₂.dom_root) a.displayString = none →
       eval (fuel + 1) s env (some (.CallExpression callee (arg0 :: args))) = (s₂, .ok none)) ∧
    (∀ s₂ a t, eval fuel s₁ s.envs.length arg0 = (s₂, .ok (some a)) →
       get_element_by_id s₂.dom (s₂.dom.length + 1) (some s₂.dom_root) a.displayString = some t →
       eval (fuel + 1) s env (some (.CallExpression callee (arg0 :: args))) =
         (s₂, .ok (some (.HtmlElement t none)))) := by
  refine ⟨?_, ?_, ?_⟩
  · intro s₂ ha
    simp only [eval, hc, RuntimeValue.beq]
    simp
    rw [ha]
  · intro s₂ a ha hg
    simp only [eval, hc, RuntimeValue.beq]
    simp
    rw [ha]
    simp [hg]
  · intro s₂ a t ha hg
    simp only [eval, hc, RuntimeValue.beq]
    simp
    rw [ha]
    simp [hg]

/-- Witness for C8: `document.getElementById("target")` on the
two-node document returns the element handle with no pending property,
through the theorem. -/
theorem getElementById_call_contract_witness :
    eval 3 c8State 0 (some c8Call) = (c8Child, .ok (some (.HtmlElement 1 none))) := by
  have h := getElementById_call_contract 2 c8State c8Child 0
      (some (.MemberExpression (some (.Identifier "document")) (some (.Identifier "getElementById"))))
      (some (.StringLiteral "target")) [] rfl
  exact h.2.2 c8Child (.StringLiteral "target") 1 rfl rfl

/-- C9 (counterexample): two Element values with the same kind `P` but
different attribute lists are NOT equal under Element's derived
equality, refuting the claim for Element values themselves. -/
theorem element_equality_attributes_counterexample :
    Element.beq ⟨.P, []⟩ ⟨.P, [⟨"id", "x"⟩]⟩ = false ∧
    (Element.mk .P []).kind = (Element.mk .P [⟨"id", "x"⟩]).kind := by
  decide

/-- C9 (amended): equality of element Nodes and of NodeKind values
compares the kind tag only, so two element nodes with equal kind and
arbitrary attributes (and arbitrary links) are equal; Element values
themselves compare structurally, so with equal kinds their equality
holds exactly when the attribute lists agree. -/
theorem node_equality_kind_only (k : ElementKind) (a₁ a₂ : List Attribute)
    (w₁ p₁ fc₁ lc₁ ps₁ ns₁ w₂ p₂ fc₂ lc₂ ps₂ ns₂ : Option Nat) :
    DomNode.beq ⟨.Element ⟨k, a₁⟩, w₁, p₁, fc₁, lc₁, ps₁, ns₁⟩
        ⟨.Element ⟨k, a₂⟩, w₂, p₂, fc₂, lc₂, ps₂, ns₂⟩ = true ∧
    NodeKind.beq (.Element ⟨k, a₁⟩) (.Element ⟨k, a₂⟩) = true ∧
    (Element.beq ⟨k, a₁⟩ ⟨k, a₂⟩ = true ↔ a₁ = a₂) := by
  refine ⟨?_, ?_, ?_⟩ <;> simp [DomNode.beq, NodeKind.beq, Element.beq]

/-- C10 (code bug): on the inputs `"va"` and `"retur"` — remaining text
a strict prefix of a reserved word, then end of input — the lexer's
reserved-word test indexes past the end of the input and is fatal,
instead of producing the claimed Identifier token. -/
theorem lexer_reserved_word_oob :
    jsNext (JsLexer.new "va") = .error .indexOutOfBounds ∧
    jsNext (JsLexer.new "retur") = .error .indexOutOfBounds := by
  decide
